import Mathlib

/-!
Verification of the JSSpeccy worker control layer (src/runtime/worker.js):
a shallow embedding of the trap dispatcher, the fast tape-load emulator,
the snapshot loader and the memory page loader, together with theorems
settling the specification's claims about them.

Machine integers are modelled as `Nat` with explicit masking where the
source masks (the `Uint16Array` register view masks writes with
`% 65536`; address arithmetic in the tape loop wraps with `& 0xffff`,
modelled as `% 65536`).
-/

/-- State of the emulation engine as the control layer sees it: the
shared byte-addressed memory image (`memoryData`), the `registerPairs`
view of twelve 16-bit register pairs (index 0 = AF, 1 = BC, 2 = DE,
3 = HL, 4 = AF', 5 = BC', 6 = DE', 7 = HL', 8 = IX, 9 = IY, 10 = SP,
11 = IR), the program counter (written through `core.setPC`), and a
number abstracting all further engine-internal state. -/
structure EngineState where
  mem : Nat → Nat
  regs : Fin 12 → Nat
  pc : Nat
  internal : Nat

/-- `core.poke(addr, byte)`: write one byte of engine memory. -/
def poke (mem : Nat → Nat) (addr byte : Nat) : Nat → Nat :=
  fun a => if a = addr then byte else mem a

/-- Result of the copy loop inside `trapTapeLoad`: the final `offset`
into the block, the running `checksum`, the memory after the pokes, and
`ok` — whether the loop finished without running out of block bytes
(the loop's own contribution to `success`). -/
structure LoopResult where
  offset : Nat
  checksum : Nat
  mem : Nat → Nat
  ok : Bool

/-- The `while (loadedBytes < requestedLength)` loop of `trapTapeLoad`,
recursing on the number of bytes still to copy.  Each iteration first
checks `offset >= block.length` (running out of bytes fails the load),
then pokes `block[offset]` at `addr`, advances `addr` with 16-bit
wraparound and xors the copied byte into the running checksum. -/
def loadLoop (block : List Nat) : Nat → Nat → Nat → Nat → (Nat → Nat) → LoopResult
  | 0, offset, _addr, checksum, mem => ⟨offset, checksum, mem, true⟩
  | remaining + 1, offset, addr, checksum, mem =>
    if block.length ≤ offset then ⟨offset, checksum, mem, false⟩
    else
      loadLoop block remaining (offset + 1) ((addr + 1) % 65536)
        (checksum ^^^ block.getD offset 0) (poke mem addr (block.getD offset 0))

/-- Body of `trapTapeLoad` once a block has been obtained: read AF'
(high byte = expected block type, bit 0 = LOAD rather than VERIFY), IX
(destination address) and DE (requested length); check the block type;
in load mode run the copy loop starting at block offset 1 with the
checksum seeded from the actual block type, then require a remaining
checksum byte equal to the running checksum; in verify mode succeed
unconditionally.  The type check, copy loop and checksum check are
split into `tapeLoadResult`, which returns the final memory together
with the local `success`; `tapeLoadBlock` below then performs the
carry write and the `setPC` call. -/
def tapeLoadResult (block : List Nat) (s : EngineState) : (Nat → Nat) × Bool :=
  let af2 := s.regs 4
  let expectedBlockType := af2 / 256
  let shouldLoad := af2 % 2
  let addr := s.regs 8
  let requestedLength := s.regs 2
  if block.get? 0 ≠ some expectedBlockType then (s.mem, false)
  else if shouldLoad ≠ 0 then
    let r := loadLoop block requestedLength 1 addr (block.getD 0 0) s.mem
    if r.ok && decide (r.offset < block.length) then
      (r.mem, decide (r.checksum = block.getD r.offset 0))
    else (r.mem, false)
  else (s.mem, true)

/-- Tail of `trapTapeLoad` after the copy: on success set the carry
with `registerPairs[0] |= 0x0001`, on failure clear it with
`registerPairs[0] &= 0xfffe` (stores through the `Uint16Array` view
mask with `% 65536`), and set PC to 0x05e2, the address at which to
exit the tape trap. -/
def tapeLoadBlock (block : List Nat) (s : EngineState) : EngineState :=
  { s with
    mem := (tapeLoadResult block s).1
    regs := fun j =>
      if j = (0 : Fin 12) then
        if (tapeLoadResult block s).2 then (s.regs 0 ||| 1) % 65536
        else (s.regs 0 &&& 0xfffe) % 65536
      else s.regs j
    pc := 0x05e2 }

/-- Modelled from the spec: `tape.getNextLoadableBlock()` is defined in
src/runtime/tape.js, which is not among the sources; the spec says the
Tape Source "produces a lazy, restartable sequence of opaque load
blocks (byte sequences)" with terminal exhaustion.  A tape is modelled
as the list of its remaining loadable blocks; fetching the next block
returns the head (or none when exhausted) together with the advanced
tape. -/
def getNextLoadableBlock (blocks : List (List Nat)) :
    Option (List Nat) × List (List Nat) :=
  (blocks.head?, blocks.tail)

/-- `trapTapeLoad`: if no tape is attached (`!tape`), or the tape
yields no next loadable block (`!block`), return without touching any
state; otherwise process the block with `tapeLoadBlock`.  The advanced
tape is returned alongside the new engine state. -/
def trapTapeLoad (tape : Option (List (List Nat))) (s : EngineState) :
    Option (List (List Nat)) × EngineState :=
  match tape with
  | none => (none, s)
  | some blocks =>
    match getNextLoadableBlock blocks with
    | (none, rest) => (some rest, s)
    | (some block, rest) => (some rest, tapeLoadBlock block s)

/-- The copy loop as `trapTapeLoad` invokes it in load mode: requested
length from DE (`registerPairs[2]`), block offset starting at 1,
destination address from IX (`registerPairs[8]`), checksum seeded with
the actual block type. -/
def tapeLoopRun (block : List Nat) (s : EngineState) : LoopResult :=
  loadLoop block (s.regs 2) 1 (s.regs 8) (block.getD 0 0) s.mem

/-- A concrete state for the C2 counterexample: AF' = 0x0100, so the
expected block type is 1 and bit 0 of the low byte is 0 (verify mode);
AF = 1, so the carry flag starts out set. -/
def cexVerifyState : EngineState :=
  { mem := fun _ => 0
    regs := fun i => if i = 4 then 256 else if i = 0 then 1 else 0
    pc := 0
    internal := 0 }

/-- A concrete state exercising the C1 claim at the wraparound corner:
AF' = 1 (expected type 0, load mode), DE = 2, IX = 0xffff. -/
def c1WitnessState : EngineState :=
  { mem := fun _ => 0
    regs := fun i => if i = 4 then 1 else if i = 2 then 2 else if i = 8 then 0xffff else 0
    pc := 0
    internal := 0 }

/-- A concrete state for the C5 witness: AF' = 1 (expected type 0,
load mode), DE = 3 (one byte more than the block can supply), IX =
0x8000, AF = 1 (carry initially set). -/
def c5WitnessState : EngineState :=
  { mem := fun _ => 0
    regs := fun i =>
      if i = 4 then 1 else if i = 2 then 3 else if i = 8 then 0x8000
      else if i = 0 then 1 else 0
    pc := 0
    internal := 0 }

/-- A concrete state for the C10 witness: AF = 0xaaaa, AF' = 1
(expected type 0, load mode), every other register pair 0x1234. -/
def c10WitnessState : EngineState :=
  { mem := fun _ => 0
    regs := fun i => if i = 0 then 0xaaaa else if i = 4 then 1 else 0x1234
    pc := 0
    internal := 0 }

/-- The layout constants exported by the opaque wasm engine:
`core.FRAME_BUFFER`, `core.MACHINE_MEMORY`, `core.AUDIO_BUFFER_LEFT`,
`core.AUDIO_BUFFER_RIGHT`, and the byte length of
`core.memory.buffer`. -/
structure CoreConstants where
  FRAME_BUFFER : Nat
  MACHINE_MEMORY : Nat
  AUDIO_BUFFER_LEFT : Nat
  AUDIO_BUFFER_RIGHT : Nat
  memLen : Nat

/-- The opaque engine entry points the worker calls.  Each transforms
the engine state in some unspecified way; `runFrame` and `resumeFrame`
additionally return a status code (0 = completed, 1 = unrecognised
opcode, 2 = tape-load trap hit, anything else unexpected). -/
structure CoreOps where
  runFrame : EngineState → EngineState × Nat
  resumeFrame : EngineState → EngineState × Nat
  setAudioSamplesPerFrame : Nat → EngineState → EngineState
  keyDown : Nat → Nat → EngineState → EngineState
  keyUp : Nat → Nat → EngineState → EngineState
  setMachineType : Nat → EngineState → EngineState
  reset : EngineState → EngineState
  setIFF1 : Bool → EngineState → EngineState
  setIFF2 : Bool → EngineState → EngineState
  setIM : Nat → EngineState → EngineState
  setHalted : Bool → EngineState → EngineState
  writePort : Nat → Nat → EngineState → EngineState
  setTStates : Nat → EngineState → EngineState

/-- The register record of a snapshot, with the names `loadSnapshot`
looks up (`AF_` stands for the source's string key AF_, the AF
shadow pair). -/
structure SnapshotRegisters where
  AF : Nat
  BC : Nat
  DE : Nat
  HL : Nat
  AF_ : Nat
  BC_ : Nat
  DE_ : Nat
  HL_ : Nat
  IX : Nat
  IY : Nat
  SP : Nat
  IR : Nat
  PC : Nat
  iff1 : Bool
  iff2 : Bool
  im : Nat

/-- `snapshot.ulaState`. -/
structure UlaState where
  borderColour : Nat
  pagingFlags : Nat

/-- A snapshot value as `loadSnapshot` consumes it.  `memoryPages` is
the page-index/page-data mapping (JS object iteration order). -/
structure Snapshot where
  model : Nat
  memoryPages : List (Nat × List Nat)
  registers : SnapshotRegisters
  halted : Bool
  ulaState : UlaState
  tstates : Nat

/-- One engine operation performed by `loadSnapshot`, recorded so that
the order of operations can be stated and checked. -/
inductive SnapOp where
  | setMachineType (model : Nat)
  | loadMemoryPage (page : Nat) (data : List Nat)
  | setRegisterPair (index : Nat) (value : Nat)
  | setPC (value : Nat)
  | setIFF1 (value : Bool)
  | setIFF2 (value : Bool)
  | setIM (value : Nat)
  | setHalted (value : Bool)
  | writePort (port : Nat) (value : Nat)
  | setTStates (value : Nat)
  deriving DecidableEq

/-- The register values named by the string list
[AF, BC, DE, HL, AF_, BC_, DE_, HL_, IX, IY, SP, IR] over which
`loadSnapshot` iterates, looked up in the snapshot's register
record. -/
def snapshotRegisterList (r : SnapshotRegisters) : List Nat :=
  [r.AF, r.BC, r.DE, r.HL, r.AF_, r.BC_, r.DE_, r.HL_, r.IX, r.IY, r.SP, r.IR]

/-- `loadSnapshot(snapshot)` as the sequence of engine operations it
performs, in source order: `setMachineType`; `loadMemoryPage` for each
supplied page; `registerPairs[i] = ...` for the twelve register names
in order; `setPC`; `setIFF1`; `setIFF2`; `setIM`; `setHalted`
(`!!snapshot.halted` is the identity on the Bool model); the border
port write; the 0x7ffd paging port write only when the model is not
48; `setTStates`. -/
def loadSnapshotTrace (snapshot : Snapshot) : List SnapOp :=
  [SnapOp.setMachineType snapshot.model]
    ++ snapshot.memoryPages.map (fun pd => SnapOp.loadMemoryPage pd.1 pd.2)
    ++ ((snapshotRegisterList snapshot.registers).enum.map
        (fun iv => SnapOp.setRegisterPair iv.1 iv.2))
    ++ [SnapOp.setPC snapshot.registers.PC,
        SnapOp.setIFF1 snapshot.registers.iff1,
        SnapOp.setIFF2 snapshot.registers.iff2,
        SnapOp.setIM snapshot.registers.im,
        SnapOp.setHalted snapshot.halted,
        SnapOp.writePort 0x00fe snapshot.ulaState.borderColour]
    ++ (if snapshot.model ≠ 48 then [SnapOp.writePort 0x7ffd snapshot.ulaState.pagingFlags]
        else [])
    ++ [SnapOp.setTStates snapshot.tstates]

/-- `dst.set(data, base)` on a byte view: write `data` at offsets
`base..base + data.length`. -/
def memWriteBytes (mem : Nat → Nat) (base : Nat) (data : List Nat) : Nat → Nat :=
  fun a => if base ≤ a ∧ a < base + data.length then data.getD (a - base) 0 else mem a

/-- `loadMemoryPage(page, data)`:
`memoryData.set(data, core.MACHINE_MEMORY + page * 0x4000)`. -/
def loadMemoryPage (c : CoreConstants) (page : Nat) (data : List Nat)
    (mem : Nat → Nat) : Nat → Nat :=
  memWriteBytes mem (c.MACHINE_MEMORY + page * 0x4000) data

/-- Interpretation of one `SnapOp` against the engine: register-pair
stores go through the `Uint16Array` view (masking with `% 65536`),
page loads through `loadMemoryPage`, `setPC` to the engine's program
counter, and the remaining operations are the engine's own opaque
setters. -/
def applySnapOp (ops : CoreOps) (c : CoreConstants) (e : EngineState) : SnapOp → EngineState
  | SnapOp.setMachineType m => ops.setMachineType m e
  | SnapOp.loadMemoryPage page data => { e with mem := loadMemoryPage c page data e.mem }
  | SnapOp.setRegisterPair i v =>
    { e with regs := fun j => if j.val = i then v % 65536 else e.regs j }
  | SnapOp.setPC v => { e with pc := v }
  | SnapOp.setIFF1 b => ops.setIFF1 b e
  | SnapOp.setIFF2 b => ops.setIFF2 b e
  | SnapOp.setIM n => ops.setIM n e
  | SnapOp.setHalted b => ops.setHalted b e
  | SnapOp.writePort p v => ops.writePort p v e
  | SnapOp.setTStates n => ops.setTStates n e

/-- `loadSnapshot`: perform the traced operations in order. -/
def loadSnapshot (ops : CoreOps) (c : CoreConstants) (snapshot : Snapshot)
    (e : EngineState) : EngineState :=
  (loadSnapshotTrace snapshot).foldl (applySnapOp ops c) e

/-- The bytes `workerFrameData` views:
`memoryData.subarray(core.FRAME_BUFFER, FRAME_BUFFER_SIZE)`.
`subarray` takes a BEGIN INDEX and an END INDEX (both clamped to the
buffer length), so the viewed region runs from the frame-buffer offset
up to index FRAME_BUFFER_SIZE, not for FRAME_BUFFER_SIZE bytes.
FRAME_BUFFER_SIZE itself is imported from src/runtime/constants.js,
which is not among the sources, so it stays a parameter here. -/
def workerFrameRegion (frameBufferSize : Nat) (c : CoreConstants)
    (mem : Nat → Nat) : List Nat :=
  (List.range (min frameBufferSize c.memLen - min c.FRAME_BUFFER c.memLen)).map
    (fun i => mem (min c.FRAME_BUFFER c.memLen + i))

/-- The frame region as the specification words it: FRAME_BUFFER_SIZE
bytes starting at the engine's frame-buffer offset.  Stated from the
spec for comparison with `workerFrameRegion`; the two agree exactly
when the frame-buffer offset is 0. -/
def specFrameRegion (frameBufferSize : Nat) (c : CoreConstants)
    (mem : Nat → Nat) : List Nat :=
  (List.range frameBufferSize).map (fun i => mem (c.FRAME_BUFFER + i))

/-- `dst.set(src)` on typed-array views of caller buffers: overwrite
the first `src.length` elements of `dst`, keep the rest. -/
def typedArraySet (dst src : List Nat) : List Nat :=
  src ++ dst.drop src.length

/-- The engine memory bytes `[off, off + len)`, the byte image of the
`Float32Array` audio regions (4 bytes per sample). -/
def memRegionBytes (mem : Nat → Nat) (off len : Nat) : List Nat :=
  (List.range len).map (fun i => mem (off + i))

/-- A run-frame request: the caller's video buffer and the optional
pair of left/right audio buffers, all as byte lists. -/
structure FrameRequest where
  video : List Nat
  audio : Option (List Nat × List Nat)

/-- A message posted back by the worker. -/
inductive Output where
  | ready
  | frameCompleted (video : List Nat) (audio : Option (List Nat × List Nat))
  deriving DecidableEq

/-- The inbound messages `onmessage` dispatches on.  Tape files arrive
as their parsed block sequences (tape parsing is the Tape Source
collaborator's concern); `other` stands for any unrecognised message,
which the worker only logs. -/
inductive Msg where
  | runFrame (req : FrameRequest)
  | keyDown (row mask : Nat)
  | keyUp (row mask : Nat)
  | setMachineType (model : Nat)
  | reset
  | loadMemory (page : Nat) (data : List Nat)
  | loadSnapshot (snapshot : Snapshot)
  | openTAPFile (blocks : List (List Nat))
  | openTZXFile (blocks : List (List Nat))
  | openTRDFile (data : List Nat)
  | other

/-- The worker's own mutable state: the `stopped` flag, the attached
tape (none until a tape message arrives), the 0xa0000-byte
`trdosDisk` buffer, and the engine state. -/
structure WorkerState where
  stopped : Bool
  tape : Option (List (List Nat))
  trdosDisk : Nat → Nat
  engine : EngineState

/-- How one run-frame dispatch loop ended: `completed` (status 0),
`fatal` (status 1 or any status other than 0 and 2: `stopped` is set
and the handler throws), or `stalled` (the model's fuel ran out while
the engine kept reporting tape traps — the JS loop would still be
running). -/
inductive LoopOutcome where
  | completed
  | fatal
  | stalled
  deriving DecidableEq

/-- State at the end of a dispatch loop: tape, engine, and outcome. -/
structure LoopState where
  tape : Option (List (List Nat))
  engine : EngineState
  outcome : LoopOutcome

/-- The `while (status)` loop of the runFrame handler: status 0 leaves
the loop; status 2 runs `trapTapeLoad` and resumes; status 1 or any
other status sets `stopped` and throws.  `fuel` bounds the number of
unrolled iterations, which the JS loop does not bound. -/
def dispatchLoop (ops : CoreOps) :
    Nat → Option (List (List Nat)) → EngineState → Nat → LoopState
  | _, tape, e, 0 => ⟨tape, e, LoopOutcome.completed⟩
  | 0, tape, e, _ + 1 => ⟨tape, e, LoopOutcome.stalled⟩
  | fuel + 1, tape, e, status + 1 =>
    if status + 1 = 2 then
      let te := trapTapeLoad tape e
      let es := ops.resumeFrame te.2
      dispatchLoop ops fuel te.1 es.1 es.2
    else ⟨tape, e, LoopOutcome.fatal⟩

/-- `audioLength`: the sample count derived from the left audio
buffer's byte length (0 when no audio buffers were supplied). -/
def runFrameAudioSamples (req : FrameRequest) : Nat :=
  match req.audio with
  | some lr => lr.1.length / 4
  | none => 0

/-- The engine part of a runFrame message: set the audio sample count,
call `core.runFrame()`, then dispatch statuses until done. -/
def frameLoopResult (ops : CoreOps) (fuel : Nat) (req : FrameRequest)
    (s : WorkerState) : LoopState :=
  let e0 := ops.setAudioSamplesPerFrame (runFrameAudioSamples req) s.engine
  let es := ops.runFrame e0
  dispatchLoop ops fuel s.tape es.1 es.2

/-- The `onmessage` handler: one message in, the new worker state and
the posted messages out.  The runFrame branch follows the source: drop
the message if stopped; run the dispatch loop; on completion copy
`workerFrameData` into the video buffer and, when the audio sample
count is nonzero, the audio regions into the audio buffers, then post
frameCompleted; on a fatal status `stopped` is already set and the
throw skips the copies and the post.  A typed-array copy whose source
does not fit its target, or a `Float32Array` over a byte length that
is not a multiple of 4, throws instead, ending the handler with no
post. -/
def processMessage (ops : CoreOps) (frameBufferSize : Nat) (c : CoreConstants)
    (fuel : Nat) : Msg → WorkerState → WorkerState × List Output
  | Msg.runFrame req, s =>
    if s.stopped then (s, [])
    else
      let L := frameLoopResult ops fuel req s
      match L.outcome with
      | LoopOutcome.completed =>
        let s2 : WorkerState := { s with tape := L.tape, engine := L.engine }
        let region := workerFrameRegion frameBufferSize c L.engine.mem
        if req.video.length < region.length then (s2, [])
        else
          let video := typedArraySet req.video region
          match req.audio with
          | some lr =>
            if lr.1.length = 0 then (s2, [Output.frameCompleted video none])
            else if lr.1.length % 4 ≠ 0 ∨ lr.2.length % 4 ≠ 0 ∨ lr.2.length < lr.1.length then
              (s2, [])
            else
              (s2, [Output.frameCompleted video (some
                (typedArraySet lr.1
                  (memRegionBytes L.engine.mem c.AUDIO_BUFFER_LEFT (4 * (lr.1.length / 4))),
                 typedArraySet lr.2
                  (memRegionBytes L.engine.mem c.AUDIO_BUFFER_RIGHT (4 * (lr.1.length / 4)))))])
          | none => (s2, [Output.frameCompleted video none])
      | LoopOutcome.fatal => ({ s with stopped := true, tape := L.tape, engine := L.engine }, [])
      | LoopOutcome.stalled => ({ s with tape := L.tape, engine := L.engine }, [])
  | Msg.keyDown row mask, s => ({ s with engine := ops.keyDown row mask s.engine }, [])
  | Msg.keyUp row mask, s => ({ s with engine := ops.keyUp row mask s.engine }, [])
  | Msg.setMachineType m, s => ({ s with engine := ops.setMachineType m s.engine }, [])
  | Msg.reset, s => ({ s with engine := ops.reset s.engine }, [])
  | Msg.loadMemory page data, s =>
    ({ s with engine := { s.engine with mem := loadMemoryPage c page data s.engine.mem } }, [])
  | Msg.loadSnapshot snap, s => ({ s with engine := loadSnapshot ops c snap s.engine }, [])
  | Msg.openTAPFile blocks, s => ({ s with tape := some blocks }, [])
  | Msg.openTZXFile blocks, s => ({ s with tape := some blocks }, [])
  | Msg.openTRDFile data, s =>
    ({ s with trdosDisk := memWriteBytes s.trdosDisk 0 (data.take 0xa0000) }, [])
  | Msg.other, s => (s, [])

/-- Process a list of messages in arrival order, concatenating the
posted outputs. -/
def processMessages (ops : CoreOps) (frameBufferSize : Nat) (c : CoreConstants)
    (fuel : Nat) : List Msg → WorkerState → WorkerState × List Output
  | [], s => (s, [])
  | m :: ms, s =>
    let so := processMessage ops frameBufferSize c fuel m s
    let so2 := processMessages ops frameBufferSize c fuel ms so.1
    (so2.1, so.2 ++ so2.2)

/-- Engine operations that do nothing and report immediate frame
completion, for concrete instances. -/
def idOps : CoreOps :=
  { runFrame := fun e => (e, 0)
    resumeFrame := fun e => (e, 0)
    setAudioSamplesPerFrame := fun _ e => e
    keyDown := fun _ _ e => e
    keyUp := fun _ _ e => e
    setMachineType := fun _ e => e
    reset := fun e => e
    setIFF1 := fun _ e => e
    setIFF2 := fun _ e => e
    setIM := fun _ e => e
    setHalted := fun _ e => e
    writePort := fun _ _ e => e
    setTStates := fun _ e => e }

/-- Engine operations whose first frame call reports status 1
(unrecognised opcode). -/
def fatalOps : CoreOps :=
  { idOps with runFrame := fun e => (e, 1) }

/-- A tiny concrete engine layout: 4 bytes of memory, frame buffer
offset 1. -/
def cexLayout : CoreConstants :=
  { FRAME_BUFFER := 1
    MACHINE_MEMORY := 0
    AUDIO_BUFFER_LEFT := 0
    AUDIO_BUFFER_RIGHT := 0
    memLen := 4 }

/-- Engine memory bytes 10, 11, 12, 13 at addresses 0..3. -/
def cexEngine : EngineState :=
  { mem := fun a => 10 + a
    regs := fun _ => 0
    pc := 0
    internal := 0 }

/-- A fresh worker: not stopped, no tape. -/
def baseWorker : WorkerState :=
  { stopped := false
    tape := none
    trdosDisk := fun _ => 0
    engine := cexEngine }

/-- The C3 counterexample request: a 2-byte video buffer holding 99s,
no audio. -/
def cexRequest : FrameRequest :=
  { video := [99, 99]
    audio := none }

/-- An engine layout for the C3 witness: 16 bytes of memory, frame
buffer at offset 0, audio regions at 8 and 12. -/
def c3Layout : CoreConstants :=
  { FRAME_BUFFER := 0
    MACHINE_MEMORY := 0
    AUDIO_BUFFER_LEFT := 8
    AUDIO_BUFFER_RIGHT := 12
    memLen := 16 }

/-- A worker over memory holding byte a at address a. -/
def c3Worker : WorkerState :=
  { stopped := false
    tape := none
    trdosDisk := fun _ => 0
    engine := { mem := fun a => a, regs := fun _ => 0, pc := 0, internal := 0 } }

/-- The C3 witness request: 2-byte video buffer, one audio sample per
channel. -/
def c3Request : FrameRequest :=
  { video := [9, 9]
    audio := some ([1, 2, 3, 4], [5, 6, 7, 8]) }

/-- When the whole requested range lies inside the block, the copy
loop finishes with `ok`, advances the offset by the number of copied
bytes, and folds every copied byte into the checksum with xor. -/
theorem loadLoop_complete (block : List Nat) (remaining : Nat) :
    ∀ offset addr checksum mem, offset + remaining ≤ block.length →
      (loadLoop block remaining offset addr checksum mem).ok = true ∧
      (loadLoop block remaining offset addr checksum mem).offset = offset + remaining ∧
      (loadLoop block remaining offset addr checksum mem).checksum =
        List.foldl Nat.xor checksum ((block.drop offset).take remaining) := by
  induction remaining with
  | zero => intro offset addr checksum mem _; simp [loadLoop]
  | succ r ih =>
    intro offset addr checksum mem h
    have hlt : offset < block.length := by omega
    rw [loadLoop, if_neg (by omega)]
    obtain ⟨h1, h2, h3⟩ := ih (offset + 1) ((addr + 1) % 65536)
      (checksum ^^^ block.getD offset 0) (poke mem addr (block.getD offset 0)) (by omega)
    refine ⟨h1, by rw [h2]; omega, ?_⟩
    rw [h3, List.drop_eq_getElem_cons hlt, List.take_succ_cons, List.foldl_cons,
      List.getD_eq_getElem block 0 hlt]
    rfl

/-- The copy loop writes only at the addresses `(addr + i) % 65536` for
`i` below the remaining count: any other address keeps its byte. -/
theorem loadLoop_mem_frame (block : List Nat) (remaining : Nat) :
    ∀ offset addr checksum mem a, addr < 65536 →
      (∀ i, i < remaining → a ≠ (addr + i) % 65536) →
      (loadLoop block remaining offset addr checksum mem).mem a = mem a := by
  induction remaining with
  | zero => intro offset addr checksum mem a _ _; simp [loadLoop]
  | succ r ih =>
    intro offset addr checksum mem a ha hne
    rw [loadLoop]
    by_cases hb : block.length ≤ offset
    · rw [if_pos hb]
    · rw [if_neg hb]
      have hpoke : a ≠ addr := by
        have h0 := hne 0 (Nat.succ_pos r)
        rwa [Nat.add_zero, Nat.mod_eq_of_lt ha] at h0
      have hrec : ∀ i, i < r → a ≠ ((addr + 1) % 65536 + i) % 65536 := by
        intro i hi
        have h1 := hne (i + 1) (by omega)
        rw [Nat.mod_add_mod, show addr + 1 + i = addr + (i + 1) from by omega]
        exact h1
      rw [ih (offset + 1) ((addr + 1) % 65536) (checksum ^^^ block.getD offset 0)
        (poke mem addr (block.getD offset 0)) a (Nat.mod_lt _ (by omega)) hrec]
      simp [poke, hpoke]

/-- Every byte the copy loop manages to copy before running out of
block bytes ends up in memory: for `i` below the remaining count with
`offset + i` inside the block, the final memory holds
`block[offset + i]` at address `(addr + i) % 65536`.  Requires the
remaining count to be at most 65536 so that no later write wraps
around onto an earlier one. -/
theorem loadLoop_mem_write (block : List Nat) (remaining : Nat) :
    ∀ offset addr checksum mem, addr < 65536 → remaining ≤ 65536 →
      ∀ i, i < remaining → offset + i < block.length →
      (loadLoop block remaining offset addr checksum mem).mem ((addr + i) % 65536) =
        block.getD (offset + i) 0 := by
  induction remaining with
  | zero => intro _ _ _ _ _ _ i hi _; exact absurd hi (by omega)
  | succ r ih =>
    intro offset addr checksum mem ha hr i hi hlen
    have hoff : offset < block.length := by omega
    rw [loadLoop, if_neg (by omega)]
    cases i with
    | zero =>
      rw [show (addr + 0) % 65536 = addr from by omega,
        loadLoop_mem_frame block r (offset + 1) ((addr + 1) % 65536)
          (checksum ^^^ block.getD offset 0) (poke mem addr (block.getD offset 0)) addr
          (Nat.mod_lt _ (by omega)) (by intro j hj heq; omega)]
      simp [poke]
    | succ i2 =>
      rw [show (addr + (i2 + 1)) % 65536 = ((addr + 1) % 65536 + i2) % 65536 from by omega,
        show offset + (i2 + 1) = offset + 1 + i2 from by omega]
      exact ih (offset + 1) ((addr + 1) % 65536) (checksum ^^^ block.getD offset 0)
        (poke mem addr (block.getD offset 0)) (Nat.mod_lt _ (by omega)) (by omega)
        i2 (by omega) (by omega)

/-- If the block runs out before the requested count is satisfied, the
copy loop reports failure. -/
theorem loadLoop_incomplete (block : List Nat) (remaining : Nat) :
    ∀ offset addr checksum mem, offset ≤ block.length →
      block.length < offset + remaining →
      (loadLoop block remaining offset addr checksum mem).ok = false := by
  induction remaining with
  | zero => intro _ _ _ _ h1 h2; exact absurd h2 (by omega)
  | succ r ih =>
    intro offset addr checksum mem h1 h2
    rw [loadLoop]
    by_cases hb : block.length ≤ offset
    · rw [if_pos hb]
    · rw [if_neg hb]
      exact ih (offset + 1) _ _ _ (by omega) (by omega)

/-- Setting the carry with `registerPairs[0] |= 0x0001` makes bit 0 of
AF true (the `Uint16Array` store masks with `% 65536`). -/
theorem carry_set_of_lor (x : Nat) : ((x ||| 1) % 65536).testBit 0 = true := by
  rw [show (65536 : Nat) = 2 ^ 16 from by norm_num, Nat.testBit_mod_two_pow, Nat.testBit_lor]
  simp

/-- Clearing the carry with `registerPairs[0] &= 0xfffe` makes bit 0 of
AF false. -/
theorem carry_clear_of_land (x : Nat) : ((x &&& 0xfffe) % 65536).testBit 0 = false := by
  rw [show (65536 : Nat) = 2 ^ 16 from by norm_num, Nat.testBit_mod_two_pow, Nat.testBit_land]
  have h : (0xfffe : Nat).testBit 0 = false := by decide
  simp [h]

/-- `registerPairs[0] |= 0x0001` leaves every bit of AF other than the
carry unchanged (AF is a 16-bit register, so below 65536). -/
theorem lor_one_testBit_pos (x j : Nat) (hx : x < 65536) (hj : j ≠ 0) :
    ((x ||| 1) % 65536).testBit j = x.testBit j := by
  rw [show (65536 : Nat) = 2 ^ 16 from by norm_num, Nat.testBit_mod_two_pow, Nat.testBit_lor]
  by_cases h16 : j < 16
  · have h1 : (1 : Nat).testBit j = false :=
      Nat.testBit_lt_two_pow (Nat.one_lt_two_pow_iff.mpr hj)
    simp [h1, h16]
  · have hx2 : x < 2 ^ 16 := lt_of_lt_of_le hx (by norm_num)
    have hxj : x.testBit j = false :=
      Nat.testBit_lt_two_pow (lt_of_lt_of_le hx2 (Nat.pow_le_pow_right (by omega) (by omega)))
    simp [h16, hxj]

/-- Unfolding `trapTapeLoad` when a block is available. -/
theorem trapTapeLoad_cons (s : EngineState) (block : List Nat) (rest : List (List Nat)) :
    trapTapeLoad (some (block :: rest)) s = (some rest, tapeLoadBlock block s) := rfl

/-- The memory after `tapeLoadBlock` is the memory `tapeLoadResult`
computed. -/
theorem tapeLoadBlock_mem (block : List Nat) (s : EngineState) :
    (tapeLoadBlock block s).mem = (tapeLoadResult block s).1 := rfl

/-- `tapeLoadBlock` always exits through `core.setPC(0x05e2)`. -/
theorem tapeLoadBlock_pc (block : List Nat) (s : EngineState) :
    (tapeLoadBlock block s).pc = 0x05e2 := rfl

/-- AF after `tapeLoadBlock`: carry set on success, cleared on
failure. -/
theorem tapeLoadBlock_regs_zero (block : List Nat) (s : EngineState) :
    (tapeLoadBlock block s).regs 0 =
      if (tapeLoadResult block s).2 then (s.regs 0 ||| 1) % 65536
      else (s.regs 0 &&& 0xfffe) % 65536 := by
  simp [tapeLoadBlock]

/-- `tapeLoadBlock` writes no register pair other than AF. -/
theorem tapeLoadBlock_regs_ne (block : List Nat) (s : EngineState) (j : Fin 12)
    (hj : j ≠ 0) : (tapeLoadBlock block s).regs j = s.regs j := by
  simp [tapeLoadBlock, hj]

/-- The carry flag after `tapeLoadBlock` is exactly the `success`
boolean of `tapeLoadResult`. -/
theorem tapeLoadBlock_carry (block : List Nat) (s : EngineState) :
    ((tapeLoadBlock block s).regs 0).testBit 0 = (tapeLoadResult block s).2 := by
  rw [tapeLoadBlock_regs_zero]
  cases hb : (tapeLoadResult block s).2
  · simpa using carry_clear_of_land (s.regs 0)
  · simpa using carry_set_of_lor (s.regs 0)

/-- `tapeLoadResult` on a block whose first byte is not the expected
type: no memory written, failure. -/
theorem tapeLoadResult_mismatch (block : List Nat) (s : EngineState)
    (h : block.get? 0 ≠ some (s.regs 4 / 256)) :
    tapeLoadResult block s = (s.mem, false) := by
  simp only [tapeLoadResult]
  rw [if_pos h]

/-- `tapeLoadResult` in verify mode with a matching block type: no
memory written, unconditional success. -/
theorem tapeLoadResult_verify (block : List Nat) (s : EngineState)
    (htype : block.get? 0 = some (s.regs 4 / 256)) (hv : s.regs 4 % 2 = 0) :
    tapeLoadResult block s = (s.mem, true) := by
  simp only [tapeLoadResult]
  rw [if_neg (not_ne_iff.mpr htype), if_neg (show ¬s.regs 4 % 2 ≠ 0 from by omega)]

/-- `tapeLoadResult` in load mode with a matching block type runs the
copy loop and the checksum check. -/
theorem tapeLoadResult_load (block : List Nat) (s : EngineState)
    (htype : block.get? 0 = some (s.regs 4 / 256)) (hl : s.regs 4 % 2 = 1) :
    tapeLoadResult block s =
      (if (tapeLoopRun block s).ok && decide ((tapeLoopRun block s).offset < block.length) then
        ((tapeLoopRun block s).mem,
          decide ((tapeLoopRun block s).checksum = block.getD (tapeLoopRun block s).offset 0))
      else ((tapeLoopRun block s).mem, false)) := by
  simp only [tapeLoadResult, tapeLoopRun]
  rw [if_neg (not_ne_iff.mpr htype), if_pos (show s.regs 4 % 2 ≠ 0 from by omega)]

/-- In load mode the memory component of `tapeLoadResult` is the copy
loop's memory whether or not the load succeeded (no rollback). -/
theorem tapeLoadResult_load_mem (block : List Nat) (s : EngineState)
    (htype : block.get? 0 = some (s.regs 4 / 256)) (hl : s.regs 4 % 2 = 1) :
    (tapeLoadResult block s).1 = (tapeLoopRun block s).mem := by
  rw [tapeLoadResult_load block s htype hl]
  split <;> rfl

/-- `registerPairs[0] &= 0xfffe` leaves every bit of AF other than the
carry unchanged (AF is a 16-bit register, so below 65536). -/
theorem land_fffe_testBit_pos (x j : Nat) (hx : x < 65536) (hj : j ≠ 0) :
    ((x &&& 0xfffe) % 65536).testBit j = x.testBit j := by
  rw [show (65536 : Nat) = 2 ^ 16 from by norm_num, Nat.testBit_mod_two_pow, Nat.testBit_land]
  by_cases h16 : j < 16
  · have hj1 : 1 ≤ j := Nat.pos_of_ne_zero hj
    have h1 : (0xfffe : Nat).testBit j = true := by interval_cases j <;> decide
    simp [h1, h16]
  · have hx2 : x < 2 ^ 16 := lt_of_lt_of_le hx (by norm_num)
    have hxj : x.testBit j = false :=
      Nat.testBit_lt_two_pow (lt_of_lt_of_le hx2 (Nat.pow_le_pow_right (by omega) (by omega)))
    simp [h16, hxj]

/-- C7: a tape-load trap fired with no tape attached, or with an
attached tape that yields no next loadable block, changes no state at
all: the memory image, every register pair (including the carry flag)
and the program counter keep their values. -/
theorem tapeTrap_no_tape_no_op (s : EngineState) :
    trapTapeLoad none s = (none, s) ∧ trapTapeLoad (some []) s = (some [], s) :=
  ⟨rfl, rfl⟩

/-- C4: with a tape attached and a loadable block available, if the
block's first byte differs from the expected block type (the high byte
of AF'), no memory location is written, the carry flag is cleared, and
PC is still set to 0x05E2. -/
theorem tapeTrap_type_mismatch (s : EngineState) (block : List Nat) (rest : List (List Nat))
    (b : Nat) (hb : block.get? 0 = some b) (hne : b ≠ s.regs 4 / 256) :
    (trapTapeLoad (some (block :: rest)) s).2.mem = s.mem ∧
    ((trapTapeLoad (some (block :: rest)) s).2.regs 0).testBit 0 = false ∧
    (trapTapeLoad (some (block :: rest)) s).2.pc = 0x05e2 := by
  rw [trapTapeLoad_cons]
  have hcond : block.get? 0 ≠ some (s.regs 4 / 256) := by
    rw [hb]; simp [hne]
  refine ⟨?_, ?_, tapeLoadBlock_pc block s⟩
  · rw [tapeLoadBlock_mem, tapeLoadResult_mismatch block s hcond]
  · rw [tapeLoadBlock_carry, tapeLoadResult_mismatch block s hcond]

/-- C2 counterexample: a verify-mode trap (bit 0 of the low byte of
AF' is 0) on a block whose first byte (0) differs from the expected
block type (1) CLEARS the carry flag: the block-type comparison runs
before the load-versus-verify branch, so verify mode does not succeed
regardless of block content, contrary to the claim. -/
theorem tapeTrap_verify_mismatch_cex :
    cexVerifyState.regs 4 % 2 = 0 ∧
    cexVerifyState.regs 4 / 256 = 1 ∧
    [0].get? 0 = some 0 ∧
    ((trapTapeLoad (some [[0]]) cexVerifyState).2.regs 0).testBit 0 = false := by
  decide

/-- C2 amended: with a tape attached, a loadable block available,
verify mode selected, and the block's first byte EQUAL to the expected
block type, the trap reports success by setting the carry flag
regardless of the rest of the block's content, writes no memory, and
sets PC to 0x05E2.  (With a mismatched first byte the carry is cleared
instead: see the counterexample.) -/
theorem tapeTrap_verify_success (s : EngineState) (block : List Nat) (rest : List (List Nat))
    (hverify : s.regs 4 % 2 = 0)
    (htype : block.get? 0 = some (s.regs 4 / 256)) :
    ((trapTapeLoad (some (block :: rest)) s).2.regs 0).testBit 0 = true ∧
    (trapTapeLoad (some (block :: rest)) s).2.mem = s.mem ∧
    (trapTapeLoad (some (block :: rest)) s).2.pc = 0x05e2 := by
  rw [trapTapeLoad_cons]
  refine ⟨?_, ?_, tapeLoadBlock_pc block s⟩
  · rw [tapeLoadBlock_carry, tapeLoadResult_verify block s htype hverify]
  · rw [tapeLoadBlock_mem, tapeLoadResult_verify block s htype hverify]

/-- Witness for the amended C2 theorem: verify mode, expected type 0,
block [0, 7, 9] with a wrong checksum byte — the carry is still set. -/
theorem tapeTrap_verify_success_witness :
    (((trapTapeLoad (some [[0, 7, 9]]) ⟨fun _ => 0, fun _ => 0, 0, 0⟩).2.regs 0).testBit 0 = true) ∧
    ((trapTapeLoad (some [[0, 7, 9]]) ⟨fun _ => 0, fun _ => 0, 0, 0⟩).2.pc = 0x05e2) := by
  have h := tapeTrap_verify_success ⟨fun _ => 0, fun _ => 0, 0, 0⟩ [0, 7, 9] []
    (by decide) (by decide)
  exact ⟨h.1, h.2.2⟩

/-- C9: a load-mode trap with matching block type and a requested
count of zero writes no memory, and the checksum check still applies
with the running checksum equal to the block-type byte: the carry flag
is set if and only if the block has a byte at offset 1 and that byte
equals the block's first byte. -/
theorem tapeTrap_zero_count (s : EngineState) (block : List Nat) (rest : List (List Nat))
    (hload : s.regs 4 % 2 = 1)
    (htype : block.get? 0 = some (s.regs 4 / 256))
    (hcount : s.regs 2 = 0) :
    (trapTapeLoad (some (block :: rest)) s).2.mem = s.mem ∧
    (((trapTapeLoad (some (block :: rest)) s).2.regs 0).testBit 0 = true ↔
      (1 < block.length ∧ block.getD 1 0 = block.getD 0 0)) := by
  rw [trapTapeLoad_cons]
  have hloop : tapeLoopRun block s = ⟨1, block.getD 0 0, s.mem, true⟩ := by
    unfold tapeLoopRun
    rw [hcount]
    rfl
  have hres : tapeLoadResult block s =
      (if 1 < block.length then (s.mem, decide (block.getD 0 0 = block.getD 1 0))
       else (s.mem, false)) := by
    rw [tapeLoadResult_load block s htype hload, hloop]
    by_cases hl : 1 < block.length
    · rw [if_pos hl, if_pos (show (LoopResult.ok ⟨1, block.getD 0 0, s.mem, true⟩ &&
          decide (LoopResult.offset ⟨1, block.getD 0 0, s.mem, true⟩ < block.length)) = true
          from by simp [hl])]
    · rw [if_neg hl, if_neg (show ¬(LoopResult.ok ⟨1, block.getD 0 0, s.mem, true⟩ &&
          decide (LoopResult.offset ⟨1, block.getD 0 0, s.mem, true⟩ < block.length)) = true
          from by simp [hl])]
  constructor
  · rw [tapeLoadBlock_mem, hres]
    split <;> rfl
  · rw [tapeLoadBlock_carry, hres]
    by_cases hl : 1 < block.length
    · rw [if_pos hl, decide_eq_true_eq]
      exact ⟨fun h => ⟨hl, h.symm⟩, fun h => h.2.symm⟩
    · rw [if_neg hl]
      simp [hl]

/-- C1: with a tape attached, a loadable block available, load mode
selected (bit 0 of the low byte of AF' is 1), the block's first byte
equal to the high byte of AF', a requested count (DE) no greater than
the block's payload length (so count + 2 ≤ block length), and the
trailing byte at offset count + 1 equal to the xor of the block-type
byte with all copied payload bytes, the trap sets the carry flag,
writes block bytes at offsets 1..count to engine memory addresses
(IX + i) % 65536, and sets PC to 0x05E2. -/
theorem tapeTrap_load_success (s : EngineState) (block : List Nat) (rest : List (List Nat))
    (hload : s.regs 4 % 2 = 1)
    (htype : block.get? 0 = some (s.regs 4 / 256))
    (hIX : s.regs 8 < 65536)
    (hDE : s.regs 2 < 65536)
    (hlen : s.regs 2 + 2 ≤ block.length)
    (hchk : block.getD (s.regs 2 + 1) 0 =
      List.foldl Nat.xor (block.getD 0 0) ((block.drop 1).take (s.regs 2))) :
    ((trapTapeLoad (some (block :: rest)) s).2.regs 0).testBit 0 = true ∧
    (∀ i, i < s.regs 2 →
      (trapTapeLoad (some (block :: rest)) s).2.mem ((s.regs 8 + i) % 65536) =
        block.getD (1 + i) 0) ∧
    (trapTapeLoad (some (block :: rest)) s).2.pc = 0x05e2 := by
  rw [trapTapeLoad_cons]
  obtain ⟨hok, hoff, hcs⟩ := loadLoop_complete block (s.regs 2) 1 (s.regs 8)
    (block.getD 0 0) s.mem (by omega)
  have hokT : (tapeLoopRun block s).ok = true := hok
  have hoffT : (tapeLoopRun block s).offset = 1 + s.regs 2 := hoff
  have hcsT : (tapeLoopRun block s).checksum =
      List.foldl Nat.xor (block.getD 0 0) ((block.drop 1).take (s.regs 2)) := hcs
  have hres : tapeLoadResult block s = ((tapeLoopRun block s).mem, true) := by
    rw [tapeLoadResult_load block s htype hload,
      if_pos (show ((tapeLoopRun block s).ok &&
          decide ((tapeLoopRun block s).offset < block.length)) = true from by
        rw [hokT, hoffT]; simp; omega)]
    rw [hoffT, hcsT, show (1 : Nat) + s.regs 2 = s.regs 2 + 1 from by omega, hchk]
    simp
  refine ⟨?_, ?_, tapeLoadBlock_pc block s⟩
  · rw [tapeLoadBlock_carry, hres]
  · intro i hi
    rw [tapeLoadBlock_mem, hres]
    exact loadLoop_mem_write block (s.regs 2) 1 (s.regs 8) (block.getD 0 0) s.mem hIX
      (by omega) i hi (by omega)

/-- Witness for C1, at the wraparound corner the claim singles out: a
2-byte load of block [0x00, 0x11, 0x22, 0x33] starting at IX = 0xffff
writes 0x11 at 0xffff and 0x22 at 0x0000, sets the carry and sets PC
to 0x05E2. -/
theorem tapeTrap_load_success_witness :
    ((trapTapeLoad (some [[0x00, 0x11, 0x22, 0x33]]) c1WitnessState).2.regs 0).testBit 0 = true ∧
    (trapTapeLoad (some [[0x00, 0x11, 0x22, 0x33]]) c1WitnessState).2.mem 0xffff = 0x11 ∧
    (trapTapeLoad (some [[0x00, 0x11, 0x22, 0x33]]) c1WitnessState).2.mem 0 = 0x22 ∧
    (trapTapeLoad (some [[0x00, 0x11, 0x22, 0x33]]) c1WitnessState).2.pc = 0x05e2 := by
  have h := tapeTrap_load_success c1WitnessState [0x00, 0x11, 0x22, 0x33] []
    (by decide) (by decide) (by decide) (by decide) (by decide) (by decide)
  have h0 := h.2.1 0 (by decide)
  have h1 := h.2.1 1 (by decide)
  refine ⟨h.1, ?_, ?_, h.2.2⟩
  · simpa [c1WitnessState] using h0
  · simpa [c1WitnessState] using h1

/-- C5: a load-mode trap with matching block type whose requested
count exceeds the available block bytes, or whose trailing checksum
byte is missing or differs from the running xor checksum, clears the
carry flag, keeps every byte copied before the failure written in
memory (no rollback), and sets PC to 0x05E2. -/
theorem tapeTrap_load_failure (s : EngineState) (block : List Nat) (rest : List (List Nat))
    (hload : s.regs 4 % 2 = 1)
    (htype : block.get? 0 = some (s.regs 4 / 256))
    (hIX : s.regs 8 < 65536)
    (hDE : s.regs 2 < 65536)
    (hfail : block.length < s.regs 2 + 2 ∨
      block.getD (s.regs 2 + 1) 0 ≠
        List.foldl Nat.xor (block.getD 0 0) ((block.drop 1).take (s.regs 2))) :
    ((trapTapeLoad (some (block :: rest)) s).2.regs 0).testBit 0 = false ∧
    (∀ i, i < s.regs 2 → 1 + i < block.length →
      (trapTapeLoad (some (block :: rest)) s).2.mem ((s.regs 8 + i) % 65536) =
        block.getD (1 + i) 0) ∧
    (trapTapeLoad (some (block :: rest)) s).2.pc = 0x05e2 := by
  rw [trapTapeLoad_cons]
  have hpos : 0 < block.length := by
    rcases block with _ | ⟨b, t⟩
    · exact absurd htype (by simp)
    · simp
  have hfalse : (tapeLoadResult block s).2 = false := by
    rw [tapeLoadResult_load block s htype hload]
    rcases Nat.lt_or_ge block.length (s.regs 2 + 1) with hlt | hge
    · have hok : (tapeLoopRun block s).ok = false :=
        loadLoop_incomplete block (s.regs 2) 1 (s.regs 8) (block.getD 0 0) s.mem
          (by omega) (by omega)
      rw [if_neg (by rw [hok]; simp)]
    · obtain ⟨hok, hoff, hcs⟩ := loadLoop_complete block (s.regs 2) 1 (s.regs 8)
        (block.getD 0 0) s.mem (by omega)
      have hokT : (tapeLoopRun block s).ok = true := hok
      have hoffT : (tapeLoopRun block s).offset = 1 + s.regs 2 := hoff
      have hcsT : (tapeLoopRun block s).checksum =
          List.foldl Nat.xor (block.getD 0 0) ((block.drop 1).take (s.regs 2)) := hcs
      rcases Nat.lt_or_ge (1 + s.regs 2) block.length with hlt2 | hge2
      · rw [if_pos (show ((tapeLoopRun block s).ok &&
            decide ((tapeLoopRun block s).offset < block.length)) = true from by
          rw [hokT, hoffT]; simp [hlt2])]
        have hmm : block.getD (s.regs 2 + 1) 0 ≠
            List.foldl Nat.xor (block.getD 0 0) ((block.drop 1).take (s.regs 2)) := by
          rcases hfail with h | h
          · exact absurd h (by omega)
          · exact h
        rw [hcsT, hoffT, show (1 : Nat) + s.regs 2 = s.regs 2 + 1 from by omega]
        show decide (List.foldl Nat.xor (block.getD 0 0) ((block.drop 1).take (s.regs 2)) =
          block.getD (s.regs 2 + 1) 0) = false
        rw [decide_eq_false (Ne.symm hmm)]
      · rw [if_neg (show ¬((tapeLoopRun block s).ok &&
            decide ((tapeLoopRun block s).offset < block.length)) = true from by
          rw [hokT, hoffT]; simp; omega)]
  have hmemT := tapeLoadResult_load_mem block s htype hload
  refine ⟨?_, ?_, tapeLoadBlock_pc block s⟩
  · rw [tapeLoadBlock_carry, hfalse]
  · intro i hi hib
    rw [tapeLoadBlock_mem, hmemT]
    exact loadLoop_mem_write block (s.regs 2) 1 (s.regs 8) (block.getD 0 0) s.mem hIX
      (by omega) i hi (by omega)

/-- Witness for C5: requesting 3 bytes from block
[0x00, 0x11, 0x22, 0x33] (payload length 2) copies 0x11, 0x22, 0x33 to
0x8000..0x8002, then fails: the carry is cleared, the copied byte at
0x8002 stays written, and PC is 0x05E2. -/
theorem tapeTrap_load_failure_witness :
    ((trapTapeLoad (some [[0x00, 0x11, 0x22, 0x33]]) c5WitnessState).2.regs 0).testBit 0 = false ∧
    (trapTapeLoad (some [[0x00, 0x11, 0x22, 0x33]]) c5WitnessState).2.mem 0x8002 = 0x33 ∧
    (trapTapeLoad (some [[0x00, 0x11, 0x22, 0x33]]) c5WitnessState).2.pc = 0x05e2 := by
  have h := tapeTrap_load_failure c5WitnessState [0x00, 0x11, 0x22, 0x33] []
    (by decide) (by decide) (by decide) (by decide) (Or.inl (by decide))
  have h2 := h.2.1 2 (by decide) (by decide)
  refine ⟨h.1, ?_, h.2.2⟩
  simpa [c5WitnessState] using h2

/-- C10: when the trap processes a block, the only register-file
changes are to bit 0 of AF (the carry) and to PC: every register pair
other than AF — in particular IX and DE — keeps its pre-trap value,
and every bit of AF other than bit 0 is unchanged. -/
theorem tapeTrap_only_carry_and_pc (s : EngineState) (block : List Nat) (rest : List (List Nat))
    (hAF : s.regs 0 < 65536) :
    (∀ j : Fin 12, j ≠ 0 → (trapTapeLoad (some (block :: rest)) s).2.regs j = s.regs j) ∧
    (∀ k : Nat, k ≠ 0 →
      ((trapTapeLoad (some (block :: rest)) s).2.regs 0).testBit k = (s.regs 0).testBit k) := by
  rw [trapTapeLoad_cons]
  constructor
  · exact fun j hj => tapeLoadBlock_regs_ne block s j hj
  · intro k hk
    rw [tapeLoadBlock_regs_zero]
    cases hb : (tapeLoadResult block s).2
    · rw [if_neg Bool.false_ne_true]
      exact land_fffe_testBit_pos (s.regs 0) k hAF hk
    · rw [if_pos rfl]
      exact lor_one_testBit_pos (s.regs 0) k hAF hk

/-- Witness for C10: after a trap on block [9], IX still holds 0x1234
and bit 1 of AF (0xaaaa) is still set. -/
theorem tapeTrap_only_carry_and_pc_witness :
    (trapTapeLoad (some [[9]]) c10WitnessState).2.regs 8 = 0x1234 ∧
    ((trapTapeLoad (some [[9]]) c10WitnessState).2.regs 0).testBit 1 = true := by
  have h := tapeTrap_only_carry_and_pc c10WitnessState [9] [] (by decide)
  exact ⟨(h.1 8 (by decide)).trans (by decide), (h.2 1 (by decide)).trans (by decide)⟩

/-- Witness for C4: expected block type 0 (AF' = 1), block [5]: type
mismatch, memory untouched, carry cleared, PC = 0x05E2. -/
theorem tapeTrap_type_mismatch_witness :
    (trapTapeLoad (some [[5]]) ⟨fun _ => 7, fun i => if i = 4 then 1 else 0, 0, 0⟩).2.mem 100 = 7 ∧
    ((trapTapeLoad (some [[5]]) ⟨fun _ => 7, fun i => if i = 4 then 1 else 0, 0, 0⟩).2.regs 0).testBit 0 = false ∧
    (trapTapeLoad (some [[5]]) ⟨fun _ => 7, fun i => if i = 4 then 1 else 0, 0, 0⟩).2.pc = 0x05e2 := by
  have h := tapeTrap_type_mismatch ⟨fun _ => 7, fun i => if i = 4 then 1 else 0, 0, 0⟩ [5] []
    5 (by decide) (by decide)
  exact ⟨by rw [h.1], h.2.1, h.2.2⟩

/-- Witness for C9: expected type 3 (AF' = 0x0301, load mode), count
0, block [3, 3]: nothing written and the carry is set because the byte
at offset 1 equals the block type. -/
theorem tapeTrap_zero_count_witness :
    (trapTapeLoad (some [[3, 3]]) ⟨fun _ => 0, fun i => if i = 4 then 0x0301 else 0, 0, 0⟩).2.mem =
      (⟨fun _ => 0, fun i => if i = 4 then 0x0301 else 0, 0, 0⟩ : EngineState).mem ∧
    ((trapTapeLoad (some [[3, 3]]) ⟨fun _ => 0, fun i => if i = 4 then 0x0301 else 0, 0, 0⟩).2.regs 0).testBit 0 = true := by
  have h := tapeTrap_zero_count ⟨fun _ => 0, fun i => if i = 4 then 0x0301 else 0, 0, 0⟩ [3, 3] []
    (by decide) (by decide) (by decide)
  exact ⟨h.1, h.2.mpr (by decide)⟩

/-- C8: `loadSnapshot` performs its engine operations in exactly the
order: machine model; each supplied memory page; the twelve register
pairs AF, BC, DE, HL, AF', BC', DE', HL', IX, IY, SP, IR (slots 0..11
in that order); PC; IFF1; IFF2; interrupt mode; halted flag; the
border-colour port; only for non-48K models the memory-paging port;
the cycle counter.  Each page-load operation writes the page data at
machine-memory base + page * 0x4000. -/
theorem loadSnapshot_operation_order (snapshot : Snapshot) :
    (loadSnapshotTrace snapshot =
      SnapOp.setMachineType snapshot.model ::
        (snapshot.memoryPages.map (fun pd => SnapOp.loadMemoryPage pd.1 pd.2)
          ++ [SnapOp.setRegisterPair 0 snapshot.registers.AF,
              SnapOp.setRegisterPair 1 snapshot.registers.BC,
              SnapOp.setRegisterPair 2 snapshot.registers.DE,
              SnapOp.setRegisterPair 3 snapshot.registers.HL,
              SnapOp.setRegisterPair 4 snapshot.registers.AF_,
              SnapOp.setRegisterPair 5 snapshot.registers.BC_,
              SnapOp.setRegisterPair 6 snapshot.registers.DE_,
              SnapOp.setRegisterPair 7 snapshot.registers.HL_,
              SnapOp.setRegisterPair 8 snapshot.registers.IX,
              SnapOp.setRegisterPair 9 snapshot.registers.IY,
              SnapOp.setRegisterPair 10 snapshot.registers.SP,
              SnapOp.setRegisterPair 11 snapshot.registers.IR,
              SnapOp.setPC snapshot.registers.PC,
              SnapOp.setIFF1 snapshot.registers.iff1,
              SnapOp.setIFF2 snapshot.registers.iff2,
              SnapOp.setIM snapshot.registers.im,
              SnapOp.setHalted snapshot.halted,
              SnapOp.writePort 0x00fe snapshot.ulaState.borderColour]
          ++ (if snapshot.model ≠ 48 then
                [SnapOp.writePort 0x7ffd snapshot.ulaState.pagingFlags]
              else [])
          ++ [SnapOp.setTStates snapshot.tstates])) ∧
    ∀ (ops : CoreOps) (c : CoreConstants) (e : EngineState) (page : Nat) (data : List Nat),
      (applySnapOp ops c e (SnapOp.loadMemoryPage page data)).mem =
        memWriteBytes e.mem (c.MACHINE_MEMORY + page * 0x4000) data := by
  constructor
  · have henum : (snapshotRegisterList snapshot.registers).enum =
        [(0, snapshot.registers.AF), (1, snapshot.registers.BC),
         (2, snapshot.registers.DE), (3, snapshot.registers.HL),
         (4, snapshot.registers.AF_), (5, snapshot.registers.BC_),
         (6, snapshot.registers.DE_), (7, snapshot.registers.HL_),
         (8, snapshot.registers.IX), (9, snapshot.registers.IY),
         (10, snapshot.registers.SP), (11, snapshot.registers.IR)] := rfl
    simp only [loadSnapshotTrace, henum, List.map_cons, List.map_nil,
      List.cons_append, List.nil_append, List.append_assoc]
  · intro ops c e page data
    rfl

/-- Once stopped, every message leaves `stopped` set and posts
nothing: the runFrame branch drops the request at the top, and no
other branch touches `stopped` or posts. -/
theorem processMessage_stopped (ops : CoreOps) (frameBufferSize : Nat)
    (c : CoreConstants) (fuel : Nat) (m : Msg) (s : WorkerState)
    (h : s.stopped = true) :
    (processMessage ops frameBufferSize c fuel m s).1.stopped = true ∧
    (processMessage ops frameBufferSize c fuel m s).2 = [] := by
  cases m <;> simp [processMessage, h]

/-- Iterating `processMessage_stopped` over any message list. -/
theorem processMessages_stopped (ops : CoreOps) (frameBufferSize : Nat)
    (c : CoreConstants) (fuel : Nat) (msgs : List Msg) :
    ∀ s : WorkerState, s.stopped = true →
      (processMessages ops frameBufferSize c fuel msgs s).1.stopped = true ∧
      (processMessages ops frameBufferSize c fuel msgs s).2 = [] := by
  induction msgs with
  | nil => intro s h; exact ⟨h, rfl⟩
  | cons m ms ih =>
    intro s h
    obtain ⟨h1, h2⟩ := processMessage_stopped ops frameBufferSize c fuel m s h
    obtain ⟨h3, h4⟩ := ih (processMessage ops frameBufferSize c fuel m s).1 h1
    simp only [processMessages]
    exact ⟨h3, by rw [h2, h4]; rfl⟩

/-- C6: when a run-frame dispatch ends with a fatal status, the
stopped flag becomes true, no frame-completed response is posted for
that request, and after any sequence of further messages (reset
included) the flag is still true and no output of any kind — in
particular no frame-completed response — has been posted. -/
theorem fatal_status_stops_forever (ops : CoreOps) (frameBufferSize : Nat)
    (c : CoreConstants) (fuel : Nat) (req : FrameRequest) (s : WorkerState)
    (hrun : s.stopped = false)
    (hfatal : (frameLoopResult ops fuel req s).outcome = LoopOutcome.fatal) :
    (processMessage ops frameBufferSize c fuel (Msg.runFrame req) s).1.stopped = true ∧
    (processMessage ops frameBufferSize c fuel (Msg.runFrame req) s).2 = [] ∧
    ∀ msgs : List Msg,
      (processMessages ops frameBufferSize c fuel msgs
        (processMessage ops frameBufferSize c fuel (Msg.runFrame req) s).1).1.stopped = true ∧
      (processMessages ops frameBufferSize c fuel msgs
        (processMessage ops frameBufferSize c fuel (Msg.runFrame req) s).1).2 = [] := by
  rcases hL : frameLoopResult ops fuel req s with ⟨Lt, Le, Lo⟩
  rw [hL] at hfatal
  simp only at hfatal
  subst hfatal
  have hstep : processMessage ops frameBufferSize c fuel (Msg.runFrame req) s =
      ({ s with stopped := true, tape := Lt, engine := Le }, []) := by
    simp [processMessage, hL, hrun]
  refine ⟨by rw [hstep], by rw [hstep], ?_⟩
  intro msgs
  exact processMessages_stopped ops frameBufferSize c fuel msgs _ (by rw [hstep])

/-- Witness for C6: with an engine whose first frame call reports
status 1, the first runFrame stops the worker silently, and a
subsequent reset followed by another runFrame still produces no
output. -/
theorem fatal_status_stops_forever_witness :
    (processMessage fatalOps 2 cexLayout 1 (Msg.runFrame cexRequest) baseWorker).1.stopped = true ∧
    (processMessages fatalOps 2 cexLayout 1 [Msg.reset, Msg.runFrame cexRequest]
      (processMessage fatalOps 2 cexLayout 1 (Msg.runFrame cexRequest) baseWorker).1).2 = [] := by
  have h := fatal_status_stops_forever fatalOps 2 cexLayout 1 cexRequest baseWorker rfl (by decide)
  exact ⟨h.1, (h.2.2 [Msg.reset, Msg.runFrame cexRequest]).2⟩

/-- C3 counterexample: with frame-buffer offset 1, FRAME_BUFFER_SIZE 2
and memory bytes 10, 11, 12, 13, a completed frame copies only the one
byte memoryData[1] — `subarray(begin, end)` takes an end index — so
the posted video buffer is [11, 99]; copying a region of LENGTH
FRAME_BUFFER_SIZE starting at the offset, as the claim states, would
post [11, 12]. -/
theorem frameCopy_region_cex :
    (processMessage idOps 2 cexLayout 0 (Msg.runFrame cexRequest) baseWorker).2 =
      [Output.frameCompleted [11, 99] none] ∧
    typedArraySet cexRequest.video (specFrameRegion 2 cexLayout cexEngine.mem) = [11, 12] ∧
    ([11, 99] : List Nat) ≠ [11, 12] := by
  refine ⟨rfl, rfl, by decide⟩

/-- C3 amended: whenever a run-frame dispatch ends Completed (and the
copies fit the supplied buffers), the worker posts exactly one
frameCompleted response; the video buffer receives the bytes of the
memory region from the frame-buffer offset up to index
FRAME_BUFFER_SIZE — `subarray(begin, end)` semantics, of length
FRAME_BUFFER_SIZE − offset, equal to the claimed
FRAME_BUFFER_SIZE-long region exactly when the offset is 0 — and
exactly when (nonempty) audio buffers were supplied, the engine's left
and right audio regions are copied into them. -/
theorem frameCompleted_copies_regions (ops : CoreOps) (frameBufferSize : Nat)
    (c : CoreConstants) (fuel : Nat) (req : FrameRequest) (s : WorkerState)
    (hrun : s.stopped = false)
    (hdone : (frameLoopResult ops fuel req s).outcome = LoopOutcome.completed)
    (hfit : (workerFrameRegion frameBufferSize c
      (frameLoopResult ops fuel req s).engine.mem).length ≤ req.video.length)
    (haudio : ∀ l r, req.audio = some (l, r) → l.length % 4 = 0 ∧ r.length = l.length) :
    (processMessage ops frameBufferSize c fuel (Msg.runFrame req) s).2 =
      [Output.frameCompleted
        (typedArraySet req.video
          (workerFrameRegion frameBufferSize c (frameLoopResult ops fuel req s).engine.mem))
        (match req.audio with
         | some lr =>
           if lr.1.length = 0 then none
           else some
             (typedArraySet lr.1 (memRegionBytes (frameLoopResult ops fuel req s).engine.mem
                c.AUDIO_BUFFER_LEFT (4 * (lr.1.length / 4))),
              typedArraySet lr.2 (memRegionBytes (frameLoopResult ops fuel req s).engine.mem
                c.AUDIO_BUFFER_RIGHT (4 * (lr.1.length / 4))))
         | none => none)] := by
  rcases hL : frameLoopResult ops fuel req s with ⟨Lt, Le, Lo⟩
  rw [hL] at hdone hfit
  simp only at hdone
  subst hdone
  rcases hreq : req.audio with _ | ⟨l, r⟩
  · simp [processMessage, hL, hrun, hreq, Nat.not_lt.mpr hfit]
  · obtain ⟨h4, hlr⟩ := haudio l r hreq
    by_cases h0 : l.length = 0
    · simp [processMessage, hL, hrun, hreq, Nat.not_lt.mpr hfit, h0]
    · have hcond : ¬(l.length % 4 ≠ 0 ∨ r.length % 4 ≠ 0 ∨ r.length < l.length) := by
        push_neg
        exact ⟨h4, by rw [hlr]; exact h4, by omega⟩
      simp [processMessage, hL, hrun, hreq, Nat.not_lt.mpr hfit, h0, hcond]

/-- Witness for the amended C3: a completed frame over layout
`c3Layout` (frame buffer at offset 0), memory byte a at address a:
the 2-byte video buffer receives bytes 0..1 and the two 4-byte audio
buffers receive the bytes at the audio regions 8..11 and 12..15. -/
theorem frameCompleted_copies_regions_witness :
    (processMessage idOps 2 c3Layout 0 (Msg.runFrame c3Request) c3Worker).2 =
      [Output.frameCompleted [0, 1] (some ([8, 9, 10, 11], [12, 13, 14, 15]))] := by
  have h := frameCompleted_copies_regions idOps 2 c3Layout 0 c3Request c3Worker rfl
    (by decide) (by decide) (by intro l r hh; cases hh; exact ⟨rfl, rfl⟩)
  exact h.trans (by decide)
